import Mathlib

/-!
Verification development for the HRIS salary-prediction service (`app.py`).

The service is a small Flask app with two endpoints, `/predict` and
`/insight`.  This file gives a shallow embedding of the request-handling
pipeline: the external-to-canonical key mapping applied to request records,
the SHAP feature-attribution aggregation (absolute values, grouping by
regex-stripped base feature name, percentage normalization, descending
sort), the per-feature narration templates, and the outermost
try/except error boundary of both endpoints.

Numbers are modelled with exact rationals (`ℚ`).  The one place where IEEE
behaviour is essential — pandas producing `NaN` on the unguarded `0/0`
percentage division — is modelled with `Option ℚ`, where `none` stands for
a non-finite float (`NaN`).  The externally supplied preprocessor, model
and SHAP explainer are opaque capabilities, modelled as an `MLModel`
record of fallible functions.
-/

namespace HrisApp

/-- A JSON-decoded request value as received by Flask (`request.get_json()`):
a string, an integer, or `null`/absent (Python `None`).  The claims under
verification never inspect float-valued record fields, so those are outside
the modelled fragment. -/
inductive JVal where
  | str (s : String)
  | int (n : ℤ)
  | null
  deriving DecidableEq, Repr

/-- Python `str()` as applied by an f-string to an interpolated value that is
a string, an int, or `None` (the value handed to `describe_feature` can be
`None` when the raw record lacks the looked-up key). -/
def pyStr : Option JVal → String
  | none => "None"
  | some (.str s) => s
  | some (.int n) => toString n
  | some .null => "None"

/-- The fixed translation table of `app.py` lines 50–57 and 85–92:
`key_mapping.get(k, k)` — each of the six known external field names is
renamed to its canonical model-facing name, any other key passes through. -/
def key_mapping (k : String) : String :=
  if k = "work_mode" then "Lokasi Kerja"
  else if k = "job_position" then "Jabatan/Posisi"
  else if k = "performance_score" then "Skor Kinerja"
  else if k = "attendance_count" then "Kehadiran Digital"
  else if k = "project_completed" then "Jumlah Proyek Selesai"
  else if k = "years_of_service" then "Masa Kerja"
  else k

/-- The six external request-field names (the domain of `key_mapping`). -/
def externalKeys : List String :=
  ["work_mode", "job_position", "performance_score",
   "attendance_count", "project_completed", "years_of_service"]

/-- The six canonical feature names (the range of `key_mapping`, and the
keys of the `desc_map` template table in `describe_feature`). -/
def canonicalNames : List String :=
  ["Lokasi Kerja", "Jabatan/Posisi", "Skor Kinerja",
   "Kehadiran Digital", "Jumlah Proyek Selesai", "Masa Kerja"]

/-- One insertion step of a Python `dict` built up key by key: inserting an
already-present key overwrites its value in place (keeping the key's
original position); a fresh key is appended.  This is CPython's
insertion-ordered dict semantics. -/
def dictInsert (d : List (String × JVal)) (k : String) (v : JVal) :
    List (String × JVal) :=
  if d.any (fun p => p.1 = k) then d.map (fun p => if p.1 = k then (k, v) else p)
  else d ++ [(k, v)]

/-- The Python dict built from a sequence of key/value pairs in order
(the result of a dict comprehension iterating those pairs). -/
def dictOfPairs (l : List (String × JVal)) : List (String × JVal) :=
  l.foldl (fun d p => dictInsert d p.1 p.2) []

/-- `{key_mapping.get(k, k): v for k, v in item.items()}` (lines 61 and 94):
the dict comprehension renaming a record's keys through `key_mapping`.
A record is a Python dict, i.e. an insertion-ordered association list with
pairwise-distinct keys. -/
def mapRecord (r : List (String × JVal)) : List (String × JVal) :=
  dictOfPairs (r.map (fun p => (key_mapping p.1, p.2)))

/-- Round-half-even (banker's rounding) of an exact rational to an integer:
the rounding applied by Python's `round` and by `format`/f-string fixed-point
formatting, here applied to the exact value being formatted. -/
def roundHalfEven (x : ℚ) : ℤ :=
  let f := ⌊x⌋
  let r := x - f
  if r < 1/2 then f
  else if 1/2 < r then f + 1
  else if f % 2 = 0 then f else f + 1

/-- Python `round(x, 2)` on an exact value: round-half-even at two decimal
places (used for `predicted_salary` and the `influence_percent` field). -/
def round2 (q : ℚ) : ℚ := (roundHalfEven (q * 100) : ℚ) / 100

/-- Python `f"{x:.1f}"` on an exact value: fixed-point formatting with
exactly one decimal digit, round-half-even, with the sign printed first
(so that small negatives format as `-0.0`, as CPython does). -/
def formatFixed1 (q : ℚ) : String :=
  let n := roundHalfEven (|q| * 10)
  let s := toString (n / 10) ++ "." ++ toString (n % 10)
  if q < 0 then "-" ++ s else s

/-- Fixed-point formatting lifted to the possibly-`NaN` percentages flowing
out of the aggregation (Python formats a float `nan` as `"nan"`). -/
def fmtPct : Option ℚ → String
  | none => "nan"
  | some q => formatFixed1 q

/-- `describe_feature` (lines 117–126): a dict of six Indonesian templates
keyed by base feature name, with `.get`'s fallback template for any other
name.  The dict literal has six distinct keys, so the lookup is the
if-chain below.  `value` is the already-stringified raw value (the
f-string applies `str()`); `percent` is formatted with one decimal place. -/
def describe_feature (feature_name : String) (value : String)
    (percent : Option ℚ) : String :=
  let p := fmtPct percent
  if feature_name = "Jabatan/Posisi" then
    "Jabatan " ++ value ++ " memengaruhi gaji sebesar " ++ p ++ "%."
  else if feature_name = "Lokasi Kerja" then
    "Mode kerja " ++ value ++ " memberikan pengaruh sekitar " ++ p ++ "%."
  else if feature_name = "Skor Kinerja" then
    "Skor kinerja " ++ value ++ " berkontribusi " ++ p ++ "% terhadap gaji."
  else if feature_name = "Masa Kerja" then
    "Masa kerja " ++ value ++ " tahun berpengaruh sekitar " ++ p ++ "%."
  else if feature_name = "Jumlah Proyek Selesai" then
    "Jumlah proyek " ++ value ++ " memberikan kontribusi " ++ p ++ "%."
  else if feature_name = "Kehadiran Digital" then
    "Kehadiran digital " ++ value ++ " memberikan dampak " ++ p ++ "% terhadap gaji."
  else
    "Faktor " ++ feature_name ++ " berpengaruh " ++ p ++ "% terhadap gaji."

/-- The scan of `re.sub(r"cat__|num__|_.+$", "", x)` (line 111) over the
character list of `x`.  Python's `re.sub` scans left to right, at each
position trying the alternatives in order and replacing the first match
with the empty string, then continuing after the match:
* `cat__` / `num__` consume five characters;
* `_.+$` matches an underscore followed by at least one character and
  extending to the end of the string (`.` does not match a newline, and
  `$` also matches just before a single trailing newline), so it deletes
  everything from the underscore on — leaving only a trailing newline in
  the second, degenerate case. -/
def stripBaseAux : List Char → List Char
  | [] => []
  | c :: cs =>
    if c = 'c' ∧ cs.take 4 = ['a', 't', '_', '_'] then stripBaseAux (cs.drop 4)
    else if c = 'n' ∧ cs.take 4 = ['u', 'm', '_', '_'] then stripBaseAux (cs.drop 4)
    else if c = '_' ∧ cs ≠ [] ∧ '\n' ∉ cs then []
    else if c = '_' ∧ cs.dropLast ≠ [] ∧ cs.getLast? = some '\n' ∧ '\n' ∉ cs.dropLast
      then ['\n']
    else c :: stripBaseAux cs
termination_by l => l.length
decreasing_by all_goals (simp; try omega)

/-- `shap_df["feature"].apply(lambda x: re.sub(r"cat__|num__|_.+$", "", x))`
(line 111): strip encoding-scheme markers and a trailing underscore-delimited
segment from an encoded feature name to recover the base feature name. -/
def stripBase (s : String) : String := ⟨stripBaseAux s.data⟩

/-- Insert into a sorted list, placing the new element before the first
element it compares `le` to (so an element inserted from the left ends up
before equal elements already placed: stable insertion). -/
def insertBy {α : Type} (le : α → α → Bool) (x : α) : List α → List α
  | [] => [x]
  | y :: ys => if le x y then x :: y :: ys else y :: insertBy le x ys

/-- Stable insertion sort.  This is exactly numpy's behaviour for the
array sizes the app produces: `np.argsort(kind="quicksort")` switches to a
stable insertion sort below 16 elements, and a grouped attribution frame
has at most a handful of rows. -/
def sortBy {α : Type} (le : α → α → Bool) : List α → List α
  | [] => []
  | x :: xs => insertBy le x (sortBy le xs)

/-- Lexicographic (code-point) sorting of strings, as pandas `groupby`
applies to its group keys (`sort=True` is the default). -/
def sortStrings (l : List String) : List String :=
  sortBy (fun a b => decide (a ≤ b)) l

/-- `shap_df.groupby("base_feature")["abs_value"].sum().reset_index()`
(line 113): one row per distinct base-feature key, keys sorted
lexicographically (pandas `groupby` default), each carrying the sum of the
`abs_value` column over the rows with that key. -/
def groupbySum (l : List (String × ℚ)) : List (String × ℚ) :=
  (sortStrings (l.map Prod.fst).dedup).map
    (fun k => (k, ((l.filter (fun p => p.1 = k)).map Prod.snd).sum))

/-- `(agg["abs_value"] / agg["abs_value"].sum()) * 100` (line 114).  The
division is unguarded in the source: when the total is zero every group
sum is zero as well (they are sums of absolute values), and pandas float
division then produces `NaN` for every row — modelled as `none`. -/
def withPercent (groups : List (String × ℚ)) : List (String × Option ℚ) :=
  let total := (groups.map Prod.snd).sum
  groups.map (fun p => (p.1, if total = 0 then none else some (p.2 / total * 100)))

/-- The comparison key of `sort_values("influence_percent")` on the
non-`NaN` rows. -/
def pvalLe (a b : String × Option ℚ) : Bool := decide (a.2.getD 0 ≤ b.2.getD 0)

/-- `agg.sort_values("influence_percent", ascending=False)` (line 115):
for `ascending=False` pandas `nargsort` reverses the non-`NaN` rows,
argsorts them ascending (stably, see `sortBy`), and reverses the
resulting order again — so exact ties keep their original relative
order — then appends the `NaN` rows at the end in their original order
(`na_position="last"` is the default). -/
def sortValuesDesc (l : List (String × Option ℚ)) : List (String × Option ℚ) :=
  (sortBy pvalLe ((l.filter (fun p => p.2.isSome)).reverse)).reverse
    ++ l.filter (fun p => !p.2.isSome)

/-- Lines 106–115 of `app.py`: the feature-group aggregation.  Pair each
encoded feature name with its attribution, take absolute values, strip
names to base features, group and sum, normalize to percentages, and sort
descending by percentage. -/
def aggregate (featureNames : List String) (shapRow : List ℚ) :
    List (String × Option ℚ) :=
  let pairs := (featureNames.zip shapRow).map (fun p => (stripBase p.1, |p.2|))
  sortValuesDesc (withPercent (groupbySum pairs))

/-- The externally supplied, already-fitted capabilities (preprocessor,
model, SHAP explainer), as the endpoints consume them.  Each call can fail
with a Python exception, modelled as `Except` with the exception's
message; `shapValues` folds in explainer construction (lines 102–104). -/
structure MLModel where
  transform : List (List (String × JVal)) → Except String (List (List ℚ))
  predict : List (List ℚ) → Except String (List ℚ)
  featureNamesOut : List String
  shapValues : List (List ℚ) → Except String (List (List ℚ))

/-- A decoded JSON request body: an object (a record), an array of
records, or any other JSON value (tagged with its Python type name, which
only feeds the `AttributeError` message text). -/
inductive JBody where
  | obj (r : List (String × JVal))
  | arr (rs : List (List (String × JVal)))
  | other (typeName : String)

/-- The endpoint's JSON reply: `{"status": "success", ...payload...}` or
`{"status": "error", "message": ...}` (no error kinds, just the text). -/
inductive ApiResult (α : Type) where
  | success (v : α)
  | failure (message : String)
  deriving DecidableEq, Repr

/-- One entry of the `feature_influence` array assembled in lines 128–150. -/
structure InsightItem where
  feature : String
  value : Option JVal
  influence_percent : Option ℚ
  description : String
  deriving DecidableEq, Repr

/-- `data.get(...)` on the raw request record (a Python dict lookup,
`None` when absent). -/
def pyGet (data : List (String × JVal)) (k : String) : Option JVal :=
  (data.filter (fun p => p.1 = k)).head?.map Prod.snd

/-- Lines 131–143: recover the human-facing raw value for a base feature
by Python substring tests (`"…" in base`) against the raw record's
external field names; `None` when no test matches. -/
def lookupVal (data : List (String × JVal)) (base : String) : Option JVal :=
  if ("Jabatan/Posisi".data <:+: base.data) then pyGet data "job_position"
  else if ("Lokasi Kerja".data <:+: base.data) then pyGet data "work_mode"
  else if ("Skor Kinerja".data <:+: base.data) then pyGet data "performance_score"
  else if ("Masa Kerja".data <:+: base.data) then pyGet data "years_of_service"
  else if ("Jumlah Proyek".data <:+: base.data) then pyGet data "project_completed"
  else if ("Kehadiran".data <:+: base.data) then pyGet data "attendance_count"
  else none

/-- The body of the `try:` block of `/predict` (lines 45–72): wrap a single
record into a batch of one, rename keys, transform, predict; the success
payload is `count = len(prediction)` and the predictions rounded to two
decimals, positionally aligned.  Iterating a non-dict, non-list body fails
with Python's `AttributeError` at `item.items()`. -/
def predictRun (m : MLModel) (body : JBody) :
    Except String (ℕ × List ℚ) := do
  let data ← match body with
    | .obj r => Except.ok [r]
    | .arr rs => Except.ok rs
    | .other t => Except.error ("'" ++ t ++ "' object has no attribute 'items'")
  let mappedList := data.map mapRecord
  let processed ← m.transform mappedList
  let prediction ← m.predict processed
  Except.ok (prediction.length, prediction.map round2)

/-- The outermost `try/except` of `/predict` (lines 44 and 74–78): any
exception becomes the generic `{"status": "error", "message": str(e)}`
reply with HTTP status 400. -/
def predictHandler (m : MLModel) (body : JBody) :
    ℕ × ApiResult (ℕ × List ℚ) :=
  match predictRun m body with
  | .ok v => (200, .success v)
  | .error e => (400, .failure e)

/-- The body of the `try:` block of `/insight` (lines 83–156): rename keys
(`data.items()` fails on a non-dict body), transform, predict, compute the
SHAP row, build the attribution frame (`pd.DataFrame` raises
`"All arrays must be of the same length"` when the name and value columns
disagree in length), aggregate, and assemble the narrated items. -/
def insightRun (m : MLModel) (body : JBody) :
    Except String (ℚ × List InsightItem) := do
  let data ← match body with
    | .obj r => Except.ok r
    | .arr _ => Except.error "'list' object has no attribute 'items'"
    | .other t => Except.error ("'" ++ t ++ "' object has no attribute 'items'")
  let mappedData := mapRecord data
  let processed ← m.transform [mappedData]
  let predictions ← m.predict processed
  let predictedSalary ← match predictions with
    | [] => Except.error "index 0 is out of bounds for axis 0 with size 0"
    | p :: _ => Except.ok p
  let featureNames := m.featureNamesOut
  let shapMat ← m.shapValues processed
  let shapRow ← match shapMat with
    | [] => Except.error "index 0 is out of bounds for axis 0 with size 0"
    | r :: _ => Except.ok r
  if featureNames.length ≠ shapRow.length then
    Except.error "All arrays must be of the same length"
  else
    let agg := aggregate featureNames shapRow
    let insights := agg.map (fun p =>
      let v := lookupVal data p.1
      { feature := p.1, value := v, influence_percent := p.2.map round2,
        description := describe_feature p.1 (pyStr v) p.2 : InsightItem })
    Except.ok (round2 predictedSalary, insights)

/-- The outermost `try/except` of `/insight` (lines 82 and 158–162). -/
def insightHandler (m : MLModel) (body : JBody) :
    ℕ × ApiResult (ℚ × List InsightItem) :=
  match insightRun m body with
  | .ok v => (200, .success v)
  | .error e => (400, .failure e)

lemma foldl_dictInsert_nodup (l : List (String × JVal)) :
    ∀ acc : List (String × JVal),
      (acc.map Prod.fst ++ l.map Prod.fst).Nodup →
      l.foldl (fun d p => dictInsert d p.1 p.2) acc = acc ++ l := by
  induction l with
  | nil => intro acc _; simp
  | cons p l ih =>
    intro acc h
    have hmem : p.1 ∉ acc.map Prod.fst := by
      rw [List.nodup_append] at h
      intro hc
      exact h.2.2 hc (List.mem_cons_self _ _)
    have hany : acc.any (fun q => q.1 = p.1) = false := by
      rw [List.any_eq_false]
      intro q hq
      simp only [decide_eq_true_eq]
      intro hqe
      exact hmem (List.mem_map.mpr ⟨q, hq, hqe⟩)
    have hins : dictInsert acc p.1 p.2 = acc ++ [p] := by
      simp [dictInsert, hany]
    rw [List.foldl_cons, hins, ih (acc ++ [p])]
    · simp
    · simpa using h

lemma mapRecord_nodup_eq (r : List (String × JVal))
    (h : (r.map (fun p => key_mapping p.1)).Nodup) :
    mapRecord r = r.map (fun p => (key_mapping p.1, p.2)) := by
  have hn : (([] : List (String × JVal)).map Prod.fst
      ++ (r.map (fun p => (key_mapping p.1, p.2))).map Prod.fst).Nodup := by
    simpa [List.map_map, Function.comp] using h
  simpa [mapRecord, dictOfPairs] using
    foldl_dictInsert_nodup (r.map (fun p => (key_mapping p.1, p.2))) [] hn

/-- C4 (amended): for every record whose keys remain pairwise distinct
after translation (in particular, no record that contains both an external
key and the canonical name it maps to), the mapped record has exactly the
same number of entries, each key is translated through the fixed table —
the six known external keys to their canonical names, every other key
verbatim — and no value is changed. -/
theorem C4_mapper_amended (r : List (String × JVal))
    (h : (r.map (fun p => key_mapping p.1)).Nodup) :
    mapRecord r = r.map (fun p => (key_mapping p.1, p.2))
    ∧ (mapRecord r).length = r.length
    ∧ key_mapping "work_mode" = "Lokasi Kerja"
    ∧ key_mapping "job_position" = "Jabatan/Posisi"
    ∧ key_mapping "performance_score" = "Skor Kinerja"
    ∧ key_mapping "attendance_count" = "Kehadiran Digital"
    ∧ key_mapping "project_completed" = "Jumlah Proyek Selesai"
    ∧ key_mapping "years_of_service" = "Masa Kerja"
    ∧ ∀ k, k ∉ externalKeys → key_mapping k = k := by
  refine ⟨mapRecord_nodup_eq r h, ?_, rfl, rfl, rfl, rfl, rfl, rfl, ?_⟩
  · rw [mapRecord_nodup_eq r h, List.length_map]
  · intro k hk
    simp only [externalKeys, List.mem_cons, List.not_mem_nil, or_false, not_or] at hk
    obtain ⟨h1, h2, h3, h4, h5, h6⟩ := hk
    simp [key_mapping, h1, h2, h3, h4, h5, h6]

/-- C4, counterexample to the claim as stated: a record containing both
`work_mode` and the literal key `Lokasi Kerja` is a legal string-keyed
mapping, but the comprehension maps both keys to `Lokasi Kerja`, so the
output dict has one entry where the input had two (the later value wins). -/
theorem C4_counterexample :
    mapRecord [("work_mode", JVal.str "Remote"), ("Lokasi Kerja", JVal.str "Onsite")]
      = [("Lokasi Kerja", JVal.str "Onsite")]
    ∧ (mapRecord [("work_mode", JVal.str "Remote"),
        ("Lokasi Kerja", JVal.str "Onsite")]).length = 1
    ∧ ([("work_mode", JVal.str "Remote"),
        ("Lokasi Kerja", JVal.str "Onsite")] : List (String × JVal)).length = 2
    ∧ (1 : ℕ) ≠ 2 := by
  refine ⟨by decide, by decide, by decide, by decide⟩

/-- Witness for `C4_mapper_amended` at a concrete two-field record. -/
theorem C4_mapper_witness :
    mapRecord [("job_position", JVal.str "Manager"), ("bonus", JVal.int 1)]
      = ([("job_position", JVal.str "Manager"), ("bonus", JVal.int 1)]).map
          (fun p => (key_mapping p.1, p.2))
    ∧ (mapRecord [("job_position", JVal.str "Manager"), ("bonus", JVal.int 1)]).length
        = ([("job_position", JVal.str "Manager"), ("bonus", JVal.int 1)] :
            List (String × JVal)).length
    ∧ key_mapping "work_mode" = "Lokasi Kerja"
    ∧ key_mapping "job_position" = "Jabatan/Posisi"
    ∧ key_mapping "performance_score" = "Skor Kinerja"
    ∧ key_mapping "attendance_count" = "Kehadiran Digital"
    ∧ key_mapping "project_completed" = "Jumlah Proyek Selesai"
    ∧ key_mapping "years_of_service" = "Masa Kerja"
    ∧ ∀ k, k ∉ externalKeys → key_mapping k = k :=
  C4_mapper_amended [("job_position", JVal.str "Manager"), ("bonus", JVal.int 1)]
    (by decide)

/-- C7: the narrator is total and deterministic — each of the six known
base names yields its specific template, any other name the generic
fallback, and in every case the sentence contains the percentage formatted
with exactly one decimal place, directly followed by a percent sign. -/
theorem C7_narrator_total (name value : String) (p : ℚ) :
    (∃ a b : String,
      describe_feature name value (some p) = a ++ (formatFixed1 p ++ "%") ++ b)
    ∧ (name ∉ canonicalNames →
        describe_feature name value (some p) =
          "Faktor " ++ name ++ " berpengaruh " ++ formatFixed1 p ++ "% terhadap gaji.")
    ∧ describe_feature "Jabatan/Posisi" value (some p) =
        "Jabatan " ++ value ++ " memengaruhi gaji sebesar " ++ formatFixed1 p ++ "%."
    ∧ describe_feature "Lokasi Kerja" value (some p) =
        "Mode kerja " ++ value ++ " memberikan pengaruh sekitar " ++ formatFixed1 p ++ "%."
    ∧ describe_feature "Skor Kinerja" value (some p) =
        "Skor kinerja " ++ value ++ " berkontribusi " ++ formatFixed1 p ++ "% terhadap gaji."
    ∧ describe_feature "Masa Kerja" value (some p) =
        "Masa kerja " ++ value ++ " tahun berpengaruh sekitar " ++ formatFixed1 p ++ "%."
    ∧ describe_feature "Jumlah Proyek Selesai" value (some p) =
        "Jumlah proyek " ++ value ++ " memberikan kontribusi " ++ formatFixed1 p ++ "%."
    ∧ describe_feature "Kehadiran Digital" value (some p) =
        "Kehadiran digital " ++ value ++ " memberikan dampak " ++ formatFixed1 p
          ++ "% terhadap gaji." := by
  refine ⟨?_, ?_, rfl, rfl, rfl, rfl, rfl, rfl⟩
  · unfold describe_feature fmtPct
    split_ifs
    · exact ⟨"Jabatan " ++ value ++ " memengaruhi gaji sebesar ", ".",
        by simp only [String.append_assoc]; rfl⟩
    · exact ⟨"Mode kerja " ++ value ++ " memberikan pengaruh sekitar ", ".",
        by simp only [String.append_assoc]; rfl⟩
    · exact ⟨"Skor kinerja " ++ value ++ " berkontribusi ", " terhadap gaji.",
        by simp only [String.append_assoc]; rfl⟩
    · exact ⟨"Masa kerja " ++ value ++ " tahun berpengaruh sekitar ", ".",
        by simp only [String.append_assoc]; rfl⟩
    · exact ⟨"Jumlah proyek " ++ value ++ " memberikan kontribusi ", ".",
        by simp only [String.append_assoc]; rfl⟩
    · exact ⟨"Kehadiran digital " ++ value ++ " memberikan dampak ", " terhadap gaji.",
        by simp only [String.append_assoc]; rfl⟩
    · exact ⟨"Faktor " ++ name ++ " berpengaruh ", " terhadap gaji.",
        by simp only [String.append_assoc]; rfl⟩
  · intro hk
    simp only [canonicalNames, List.mem_cons, List.not_mem_nil, or_false, not_or] at hk
    obtain ⟨h1, h2, h3, h4, h5, h6⟩ := hk
    simp [describe_feature, fmtPct, h1, h2, h3, h4, h5, h6]

/-- Witness for `C7_narrator_total` at a name outside the known six. -/
theorem C7_narrator_witness :
    describe_feature "Tunjangan" "x" (some (5 / 2)) =
      "Faktor " ++ "Tunjangan" ++ " berpengaruh " ++ formatFixed1 (5 / 2)
        ++ "% terhadap gaji." :=
  (C7_narrator_total "Tunjangan" "x" (5 / 2)).2.1 (by decide)

lemma insertBy_perm {α : Type} (le : α → α → Bool) (x : α) (l : List α) :
    (insertBy le x l).Perm (x :: l) := by
  induction l with
  | nil => exact List.Perm.refl _
  | cons y ys ih =>
    unfold insertBy
    by_cases h : le x y = true
    · rw [if_pos h]
    · rw [if_neg h]
      exact (ih.cons y).trans (List.Perm.swap x y ys)

lemma sortBy_perm {α : Type} (le : α → α → Bool) (l : List α) :
    (sortBy le l).Perm l := by
  induction l with
  | nil => exact List.Perm.refl _
  | cons x xs ih =>
    exact (insertBy_perm le x (sortBy le xs)).trans (ih.cons x)

lemma insertBy_pairwise {α : Type} (le : α → α → Bool) (T : α → α → Prop)
    (htrans : ∀ a b c, le a b = true → le b c = true → le a c = true)
    (htot : ∀ a b, le a b = true ∨ le b a = true)
    (x : α) (l : List α) (hT : ∀ y ∈ l, T x y)
    (hl : l.Pairwise (fun a b => le a b = true ∧ (le b a = true → T a b))) :
    (insertBy le x l).Pairwise (fun a b => le a b = true ∧ (le b a = true → T a b)) := by
  induction l with
  | nil => simp [insertBy]
  | cons y ys ih =>
    rw [List.pairwise_cons] at hl
    obtain ⟨hy, hys⟩ := hl
    unfold insertBy
    by_cases h : le x y = true
    · rw [if_pos h]
      refine List.Pairwise.cons ?_ (List.Pairwise.cons hy hys)
      intro z hz
      rcases List.mem_cons.mp hz with rfl | hz'
      · exact ⟨h, fun _ => hT z (List.mem_cons_self _ _)⟩
      · exact ⟨htrans x y z h (hy z hz').1,
          fun _ => hT z (List.mem_cons_of_mem _ hz')⟩
    · rw [if_neg h]
      have hyx : le y x = true := (htot x y).resolve_left h
      refine List.Pairwise.cons ?_
        (ih (fun z hz => hT z (List.mem_cons_of_mem _ hz)) hys)
      intro z hz
      rcases List.mem_cons.mp ((insertBy_perm le x ys).mem_iff.mp hz) with rfl | hz'
      · exact ⟨hyx, fun hzy => absurd hzy h⟩
      · exact hy z hz'

lemma sortBy_pairwise {α : Type} (le : α → α → Bool) (T : α → α → Prop)
    (htrans : ∀ a b c, le a b = true → le b c = true → le a c = true)
    (htot : ∀ a b, le a b = true ∨ le b a = true)
    (l : List α) (hl : l.Pairwise T) :
    (sortBy le l).Pairwise (fun a b => le a b = true ∧ (le b a = true → T a b)) := by
  induction l with
  | nil => simp [sortBy]
  | cons x xs ih =>
    rw [List.pairwise_cons] at hl
    exact insertBy_pairwise le T htrans htot x (sortBy le xs)
      (fun y hy => hl.1 y ((sortBy_perm le xs).subset hy)) (ih hl.2)

lemma sortValuesDesc_perm (l : List (String × Option ℚ)) :
    (sortValuesDesc l).Perm l := by
  unfold sortValuesDesc
  refine (List.Perm.append_right _ ?_).trans (List.filter_append_perm _ l)
  exact (List.reverse_perm _).trans ((sortBy_perm _ _).trans (List.reverse_perm _))

lemma sum_map_filter_add (l : List (String × ℚ)) (p : String × ℚ → Bool) :
    ((l.filter p).map Prod.snd).sum + ((l.filter (fun x => !p x)).map Prod.snd).sum
      = (l.map Prod.snd).sum := by
  have h := ((List.filter_append_perm p l).map Prod.snd).sum_eq
  simpa [List.sum_append] using h

lemma sum_over_keys (ks : List String) :
    ∀ l : List (String × ℚ), ks.Nodup → (∀ p ∈ l, p.1 ∈ ks) →
      (ks.map (fun k => ((l.filter (fun p => p.1 = k)).map Prod.snd).sum)).sum
        = (l.map Prod.snd).sum := by
  induction ks with
  | nil =>
    intro l _ hmem
    cases l with
    | nil => simp
    | cons p l => exact absurd (hmem p (List.mem_cons_self _ _)) (List.not_mem_nil _)
  | cons k ks ih =>
    intro l hnd hmem
    rw [List.map_cons, List.sum_cons]
    have hne : ∀ k' ∈ ks, k' ≠ k := by
      intro k' hk' he
      exact (List.nodup_cons.mp hnd).1 (he ▸ hk')
    have hmap : ks.map (fun k' => ((l.filter (fun p => p.1 = k')).map Prod.snd).sum)
        = ks.map (fun k' => (((l.filter (fun p => !(decide (p.1 = k)))).filter
            (fun p => p.1 = k')).map Prod.snd).sum) := by
      refine List.map_congr_left (fun k' hk' => ?_)
      rw [List.filter_filter]
      have hf : l.filter (fun p => decide (p.1 = k'))
          = l.filter (fun a => decide (a.1 = k') && !decide (a.1 = k)) :=
        List.filter_congr (fun p _ => by
          by_cases hp : p.1 = k'
          · simp [hp, hne k' hk']
          · simp [hp])
      rw [hf]
    rw [hmap, ih (l.filter (fun p => !(decide (p.1 = k)))) (List.nodup_cons.mp hnd).2
      (fun p hp => ?_)]
    · exact sum_map_filter_add l (fun p => p.1 = k)
    · have h1 := hmem p (List.mem_of_mem_filter hp)
      have h2 : ¬(p.1 = k) := by simpa using (List.mem_filter.mp hp).2
      exact (List.mem_cons.mp h1).resolve_left h2

lemma sum_groupbySum (l : List (String × ℚ)) :
    ((groupbySum l).map Prod.snd).sum = (l.map Prod.snd).sum := by
  unfold groupbySum sortStrings
  rw [List.map_map]
  have hc : (Prod.snd ∘ fun k => (k, ((l.filter (fun p => p.1 = k)).map Prod.snd).sum))
      = fun k => ((l.filter (fun p => p.1 = k)).map Prod.snd).sum := rfl
  rw [hc]
  rw [((sortBy_perm (fun a b => decide (a ≤ b)) (l.map Prod.fst).dedup).map
    (fun k => ((l.filter (fun p => p.1 = k)).map Prod.snd).sum)).sum_eq]
  exact sum_over_keys (l.map Prod.fst).dedup l (List.nodup_dedup _)
    (fun p hp => List.mem_dedup.mpr (List.mem_map.mpr ⟨p, hp, rfl⟩))

/-- The total absolute attribution equals the sum of `|v|` over the
attribution vector whenever the name and value columns are aligned. -/
lemma total_eq_sum_abs (featureNames : List String) (shapRow : List ℚ)
    (hlen : featureNames.length = shapRow.length) :
    ((groupbySum ((featureNames.zip shapRow).map
        (fun p => (stripBase p.1, |p.2|)))).map Prod.snd).sum
      = (shapRow.map (fun v => |v|)).sum := by
  rw [sum_groupbySum, List.map_map]
  have h1 : (Prod.snd ∘ fun p : String × ℚ => (stripBase p.1, |p.2|))
      = (fun v => |v|) ∘ Prod.snd := rfl
  rw [h1, ← List.map_map]
  rw [List.map_snd_zip featureNames shapRow hlen.ge]

/-- C1: for aligned name/attribution columns where the attribution values
are not all zero, every group percentage computed by the aggregation is a
finite number, and in exact rational arithmetic the percentages sum to
exactly 100. -/
theorem C1_percentages_sum_100 (featureNames : List String) (shapRow : List ℚ)
    (hlen : featureNames.length = shapRow.length)
    (hnz : ∃ v ∈ shapRow, v ≠ 0) :
    (∀ p ∈ aggregate featureNames shapRow, p.2.isSome)
    ∧ ((aggregate featureNames shapRow).filterMap (fun p => p.2)).sum = 100 := by
  obtain ⟨v, hv, hvne⟩ := hnz
  have hagg : aggregate featureNames shapRow
      = sortValuesDesc (withPercent (groupbySum ((featureNames.zip shapRow).map
          (fun p => (stripBase p.1, |p.2|))))) := rfl
  rw [hagg]
  set G := groupbySum ((featureNames.zip shapRow).map
    (fun p => (stripBase p.1, |p.2|))) with hGdef
  have htpos : 0 < (G.map Prod.snd).sum := by
    rw [hGdef, total_eq_sum_abs _ _ hlen]
    have h1 : |v| ∈ shapRow.map (fun w => |w|) := List.mem_map.mpr ⟨v, hv, rfl⟩
    have h2 : ∀ x ∈ shapRow.map (fun w => |w|), 0 ≤ x := by
      intro x hx
      obtain ⟨w, _, rfl⟩ := List.mem_map.mp hx
      exact abs_nonneg w
    exact lt_of_lt_of_le (abs_pos.mpr hvne) (List.single_le_sum h2 _ h1)
  have htne : (G.map Prod.snd).sum ≠ 0 := ne_of_gt htpos
  have hwp : withPercent G
      = G.map (fun p => (p.1, some (p.2 / (G.map Prod.snd).sum * 100))) := by
    unfold withPercent
    simp [htne]
  constructor
  · intro p hp
    have hp' : p ∈ withPercent G := (sortValuesDesc_perm _).subset hp
    rw [hwp] at hp'
    obtain ⟨q, _, rfl⟩ := List.mem_map.mp hp'
    rfl
  · rw [((sortValuesDesc_perm (withPercent G)).filterMap (fun p => p.2)).sum_eq,
      hwp, List.filterMap_map]
    have hcomp : ((fun p : String × Option ℚ => p.2)
        ∘ (fun p : String × ℚ => (p.1, some (p.2 / (G.map Prod.snd).sum * 100))))
        = some ∘ (fun p : String × ℚ => p.2 / (G.map Prod.snd).sum * 100) := rfl
    rw [hcomp, List.filterMap_eq_map]
    have hre : (fun p : String × ℚ => p.2 / (G.map Prod.snd).sum * 100)
        = fun p : String × ℚ => p.2 * (100 / (G.map Prod.snd).sum) := by
      funext p
      rw [div_mul_eq_mul_div, mul_div_assoc]
    rw [hre, List.sum_map_mul_right]
    have hs : (List.map (fun p : String × ℚ => p.2) G) = List.map Prod.snd G := rfl
    rw [hs, ← mul_div_assoc, mul_div_cancel_left₀ _ htne]

/-- Witness for `C1_percentages_sum_100` on a one-column frame. -/
theorem C1_percentages_witness :
    (∀ p ∈ aggregate ["num__Masa Kerja"] [(2 : ℚ)], p.2.isSome)
    ∧ ((aggregate ["num__Masa Kerja"] [(2 : ℚ)]).filterMap (fun p => p.2)).sum = 100 :=
  C1_percentages_sum_100 ["num__Masa Kerja"] [2] rfl ⟨2, by decide, by decide⟩

lemma aggregate_unfold (featureNames : List String) (shapRow : List ℚ) :
    aggregate featureNames shapRow
      = sortValuesDesc (withPercent (groupbySum ((featureNames.zip shapRow).map
          (fun p => (stripBase p.1, |p.2|))))) := rfl

lemma groupbySum_keys_sorted (l : List (String × ℚ)) :
    (groupbySum l).Pairwise (fun a b => a.1 < b.1) := by
  unfold groupbySum sortStrings
  rw [List.pairwise_map]
  have hnd : ((l.map Prod.fst).dedup).Pairwise (fun a b : String => a ≠ b) :=
    List.nodup_dedup _
  have hs := sortBy_pairwise (fun a b : String => decide (a ≤ b)) (fun a b => a ≠ b)
    (fun a b c hab hbc => by
      simp only [decide_eq_true_eq] at hab hbc ⊢
      exact le_trans hab hbc)
    (fun a b => by
      simp only [decide_eq_true_eq]
      exact le_total a b)
    _ hnd
  refine hs.imp ?_
  intro a b hab
  obtain ⟨h1, h2⟩ := hab
  simp only [decide_eq_true_eq] at h1 h2
  by_cases hba : b ≤ a
  · exact lt_of_le_of_ne h1 (h2 hba)
  · exact lt_of_le_not_le h1 hba

/-- C3 (amended): whenever the total absolute attribution is nonzero, the
aggregation output is sorted in non-increasing order of percentage, and
groups with exactly equal percentages appear in *increasing lexicographic
order of base-feature name* — the ascending key order pandas `groupby`
emits, which the stable descending sort preserves for exact ties — not in
first-occurrence order of the encoded input. -/
theorem C3_sort_order_amended (featureNames : List String) (shapRow : List ℚ)
    (hlen : featureNames.length = shapRow.length)
    (hnz : ∃ v ∈ shapRow, v ≠ 0) :
    (aggregate featureNames shapRow).Pairwise
      (fun a b => b.2.getD 0 < a.2.getD 0
        ∨ (b.2.getD 0 = a.2.getD 0 ∧ a.1 < b.1)) := by
  obtain ⟨v, hv, hvne⟩ := hnz
  rw [aggregate_unfold]
  set G := groupbySum ((featureNames.zip shapRow).map
    (fun p => (stripBase p.1, |p.2|))) with hGdef
  have htpos : 0 < (G.map Prod.snd).sum := by
    rw [hGdef, total_eq_sum_abs _ _ hlen]
    have h1 : |v| ∈ shapRow.map (fun w => |w|) := List.mem_map.mpr ⟨v, hv, rfl⟩
    have h2 : ∀ x ∈ shapRow.map (fun w => |w|), 0 ≤ x := by
      intro x hx
      obtain ⟨w, _, rfl⟩ := List.mem_map.mp hx
      exact abs_nonneg w
    exact lt_of_lt_of_le (abs_pos.mpr hvne) (List.single_le_sum h2 _ h1)
  have htne : (G.map Prod.snd).sum ≠ 0 := ne_of_gt htpos
  have hwp : withPercent G
      = G.map (fun p => (p.1, some (p.2 / (G.map Prod.snd).sum * 100))) := by
    unfold withPercent
    simp [htne]
  have hsome : ∀ p ∈ withPercent G, p.2.isSome := by
    rw [hwp]
    intro p hp
    obtain ⟨q, _, rfl⟩ := List.mem_map.mp hp
    rfl
  have hfilter1 : (withPercent G).filter (fun p => p.2.isSome) = withPercent G :=
    List.filter_eq_self.mpr hsome
  have hfilter2 : (withPercent G).filter (fun p => !p.2.isSome) = [] :=
    List.filter_eq_nil_iff.mpr (fun p hp => by simp [hsome p hp])
  have hkeys : (withPercent G).Pairwise (fun a b => a.1 < b.1) := by
    rw [hwp, List.pairwise_map]
    exact (groupbySum_keys_sorted _).imp (fun h => h)
  unfold sortValuesDesc
  rw [hfilter1, hfilter2, List.append_nil, List.pairwise_reverse]
  have hrev : ((withPercent G).reverse).Pairwise (fun a b => b.1 < a.1) :=
    List.pairwise_reverse.mpr hkeys
  have hT : ((withPercent G).reverse).Pairwise
      (fun a b : String × Option ℚ => a.2.getD 0 = b.2.getD 0 → b.1 < a.1) :=
    hrev.imp (fun {a b} h => fun _ : a.2.getD 0 = b.2.getD 0 => h)
  have hs := sortBy_pairwise pvalLe
    (fun a b : String × Option ℚ => a.2.getD 0 = b.2.getD 0 → b.1 < a.1)
    (fun a b c hab hbc => by
      simp only [pvalLe, decide_eq_true_eq] at hab hbc ⊢
      exact le_trans hab hbc)
    (fun a b => by
      simp only [pvalLe, decide_eq_true_eq]
      exact le_total _ _)
    ((withPercent G).reverse) hT
  refine hs.imp ?_
  intro a b hab
  obtain ⟨h1, h2⟩ := hab
  simp only [pvalLe, decide_eq_true_eq] at h1 h2
  by_cases heq : a.2.getD 0 = b.2.getD 0
  · exact Or.inr ⟨heq, h2 (le_of_eq heq.symm) heq⟩
  · exact Or.inl (lt_of_le_of_ne h1 heq)

/-- Witness for `C3_sort_order_amended` on a two-column frame. -/
theorem C3_sort_order_witness :
    (aggregate ["num__Masa Kerja", "cat__Lokasi Kerja_Remote"] [(3 : ℚ), 1]).Pairwise
      (fun a b => b.2.getD 0 < a.2.getD 0
        ∨ (b.2.getD 0 = a.2.getD 0 ∧ a.1 < b.1)) :=
  C3_sort_order_amended ["num__Masa Kerja", "cat__Lokasi Kerja_Remote"] [3, 1]
    rfl ⟨3, by decide, by decide⟩

/-- C3, counterexample to the tie-break clause of the claim as stated:
three encoded names `b`, `a`, `c` (which the stripping rule leaves
unchanged) with equal attributions 1, 1, 1.  All three groups tie at
100/3 percent, the first-occurrence order of the base names in the input
is `b, a, c`, yet the produced order is `a, b, c` (groupby sorts the keys
ascending and the stable descending sort keeps that order for the ties). -/
theorem C3_counterexample :
    ((["b", "a", "c"] : List String).map stripBase = ["b", "a", "c"])
    ∧ (aggregate ["b", "a", "c"] [1, 1, 1]).map Prod.fst = ["a", "b", "c"]
    ∧ (∀ p ∈ aggregate ["b", "a", "c"] [1, 1, 1], p.2 = some (100 / 3))
    ∧ (["a", "b", "c"] : List String) ≠ ["b", "a", "c"] := by
  have hp : ((["b", "a", "c"] : List String).zip [(1 : ℚ), 1, 1]).map
      (fun p => (stripBase p.1, |p.2|))
      = [("b", 1), ("a", 1), ("c", 1)] := by
    simp [stripBase, stripBaseAux]
  have he : aggregate ["b", "a", "c"] [1, 1, 1]
      = sortValuesDesc (withPercent (groupbySum [("b", 1), ("a", 1), ("c", 1)])) := by
    rw [aggregate_unfold, hp]
  refine ⟨by simp [stripBase, stripBaseAux], ?_, ?_, by decide⟩
  · rw [he]
    simp +decide [sortValuesDesc, withPercent, groupbySum, sortStrings, sortBy,
      insertBy, pvalLe, List.dedup, List.filter, List.sum]
    all_goals norm_num [pvalLe, sortBy, insertBy]
  · rw [he]
    simp +decide [sortValuesDesc, withPercent, groupbySum, sortStrings, sortBy,
      insertBy, pvalLe, List.dedup, List.filter, List.sum]
    norm_num [pvalLe, sortBy, insertBy]
    intro a b h
    rcases h with ⟨-, h⟩ | ⟨-, h⟩ | ⟨-, h⟩ <;> exact h

/-- C2: evaluation of the aggregation at an all-zero attribution vector.
The source does not guard the division (line 114): the total is 0, pandas
computes `0.0 / 0.0 = NaN` for every group, and the resulting percentages
are `NaN` (`none`), not 0 — so no group is assigned percentage 0.  (No
exception is raised: the handler still answers successfully, carrying the
`NaN` percentages.) -/
theorem C2_zero_total_gives_nan :
    aggregate ["num__Masa Kerja", "cat__Lokasi Kerja_Remote"] [0, 0]
      = [("Lokasi Kerja", none), ("Masa Kerja", none)]
    ∧ ∀ p ∈ aggregate ["num__Masa Kerja", "cat__Lokasi Kerja_Remote"] [0, 0],
        p.2 ≠ some 0 := by
  have hp : ((["num__Masa Kerja", "cat__Lokasi Kerja_Remote"] : List String).zip
      [(0 : ℚ), 0]).map (fun p => (stripBase p.1, |p.2|))
      = [("Masa Kerja", 0), ("Lokasi Kerja", 0)] := by
    simp [stripBase, stripBaseAux]
  have he : aggregate ["num__Masa Kerja", "cat__Lokasi Kerja_Remote"] [0, 0]
      = sortValuesDesc (withPercent
          (groupbySum [("Masa Kerja", 0), ("Lokasi Kerja", 0)])) := by
    rw [aggregate_unfold, hp]
  rw [he]
  constructor
  · simp +decide [sortValuesDesc, withPercent, groupbySum, sortStrings, sortBy,
      insertBy, pvalLe, List.dedup, List.filter, List.sum]
  · simp +decide [sortValuesDesc, withPercent, groupbySum, sortStrings, sortBy,
      insertBy, pvalLe, List.dedup, List.filter, List.sum]

/-- A character position at which no alternative of the stripping regex
can start, regardless of what follows the list it sits in: not an
underscore, and, for `c`/`n`, the four following characters are already
present and do not complete `cat__`/`num__`. -/
def charSafe (c : Char) (cs : List Char) : Bool :=
  if c = '_' then false
  else if c = 'c' then decide (4 ≤ cs.length ∧ cs.take 4 ≠ ['a', 't', '_', '_'])
  else if c = 'n' then decide (4 ≤ cs.length ∧ cs.take 4 ≠ ['u', 'm', '_', '_'])
  else true

/-- A character list the regex scan walks through without ever matching,
in any right context. -/
def scanSafe : List Char → Bool
  | [] => true
  | c :: cs => charSafe c cs && scanSafe cs

lemma stripBaseAux_append (l rest : List Char) (h : scanSafe l = true) :
    stripBaseAux (l ++ rest) = l ++ stripBaseAux rest := by
  induction l with
  | nil => simp
  | cons c cs ih =>
    rw [scanSafe, Bool.and_eq_true] at h
    obtain ⟨hc, hcs⟩ := h
    have hne : c ≠ '_' := by
      intro he
      simp [charSafe, he] at hc
    have h1 : ¬(c = 'c' ∧ (cs ++ rest).take 4 = ['a', 't', '_', '_']) := by
      rintro ⟨rfl, htk⟩
      have hg : 4 ≤ cs.length ∧ cs.take 4 ≠ ['a', 't', '_', '_'] := by
        simpa [charSafe] using hc
      rw [List.take_append_of_le_length hg.1] at htk
      exact hg.2 htk
    have h2 : ¬(c = 'n' ∧ (cs ++ rest).take 4 = ['u', 'm', '_', '_']) := by
      rintro ⟨rfl, htk⟩
      have hg : 4 ≤ cs.length ∧ cs.take 4 ≠ ['u', 'm', '_', '_'] := by
        simpa [charSafe] using hc
      rw [List.take_append_of_le_length hg.1] at htk
      exact hg.2 htk
    have h3 : ¬(c = '_' ∧ (cs ++ rest) ≠ [] ∧ '\n' ∉ (cs ++ rest)) :=
      fun hx => hne hx.1
    have h4 : ¬(c = '_' ∧ (cs ++ rest).dropLast ≠ []
        ∧ (cs ++ rest).getLast? = some '\n' ∧ '\n' ∉ (cs ++ rest).dropLast) :=
      fun hx => hne hx.1
    rw [List.cons_append, stripBaseAux, if_neg h1, if_neg h2, if_neg h3, if_neg h4,
      ih hcs, List.cons_append]

lemma stripBaseAux_safe (l : List Char) (h : scanSafe l = true) :
    stripBaseAux l = l := by
  have h2 := stripBaseAux_append l [] h
  simpa [stripBaseAux] using h2

lemma stripBaseAux_cat (l : List Char) :
    stripBaseAux ('c' :: 'a' :: 't' :: '_' :: '_' :: l) = stripBaseAux l := by
  rw [stripBaseAux]
  simp

lemma stripBaseAux_num (l : List Char) :
    stripBaseAux ('n' :: 'u' :: 'm' :: '_' :: '_' :: l) = stripBaseAux l := by
  rw [stripBaseAux]
  simp

lemma stripBaseAux_underscore (l : List Char) (h1 : l ≠ []) (h2 : '\n' ∉ l) :
    stripBaseAux ('_' :: l) = [] := by
  rw [stripBaseAux]
  simp [h1, h2]

lemma stripBase_cat_safe (c : String) (h : scanSafe c.data = true) :
    stripBase ("cat__" ++ c) = c := by
  apply String.ext
  show stripBaseAux (("cat__" ++ c).data) = c.data
  have hd : (("cat__" : String) ++ c).data
      = 'c' :: 'a' :: 't' :: '_' :: '_' :: c.data := rfl
  rw [hd, stripBaseAux_cat, stripBaseAux_safe _ h]

lemma stripBase_num_safe (c : String) (h : scanSafe c.data = true) :
    stripBase ("num__" ++ c) = c := by
  apply String.ext
  show stripBaseAux (("num__" ++ c).data) = c.data
  have hd : (("num__" : String) ++ c).data
      = 'n' :: 'u' :: 'm' :: '_' :: '_' :: c.data := rfl
  rw [hd, stripBaseAux_num, stripBaseAux_safe _ h]

lemma stripBase_cat_suffix_safe (c : String) (h : scanSafe c.data = true)
    (s : String) (hs : s.data ≠ []) (hn : '\n' ∉ s.data) :
    stripBase ("cat__" ++ c ++ "_" ++ s) = c := by
  apply String.ext
  show stripBaseAux ((("cat__" : String) ++ c ++ "_" ++ s).data) = c.data
  have hd : (("cat__" : String) ++ c ++ "_" ++ s).data
      = 'c' :: 'a' :: 't' :: '_' :: '_' :: (c.data ++ '_' :: s.data) := by
    simp only [String.data_append, List.append_assoc]
    rfl
  rw [hd, stripBaseAux_cat, stripBaseAux_append _ _ h,
    stripBaseAux_underscore _ hs hn, List.append_nil]

lemma stripBase_num_suffix_safe (c : String) (h : scanSafe c.data = true)
    (s : String) (hs : s.data ≠ []) (hn : '\n' ∉ s.data) :
    stripBase ("num__" ++ c ++ "_" ++ s) = c := by
  apply String.ext
  show stripBaseAux ((("num__" : String) ++ c ++ "_" ++ s).data) = c.data
  have hd : (("num__" : String) ++ c ++ "_" ++ s).data
      = 'n' :: 'u' :: 'm' :: '_' :: '_' :: (c.data ++ '_' :: s.data) := by
    simp only [String.data_append, List.append_assoc]
    rfl
  rw [hd, stripBaseAux_num, stripBaseAux_append _ _ h,
    stripBaseAux_underscore _ hs hn, List.append_nil]

/-- C5: for each of the six canonical feature names, stripping an encoded
name built from an encoding prefix (`cat__` or `num__`), the canonical
name, and an optional underscore-delimited category suffix (a nonempty,
single-line category string) recovers exactly that canonical name. -/
theorem C5_roundtrip :
    ∀ p ∈ (["cat__", "num__"] : List String), ∀ c ∈ canonicalNames, ∀ s : String,
      s.data ≠ [] → '\n' ∉ s.data →
      stripBase (p ++ c) = c ∧ stripBase (p ++ c ++ "_" ++ s) = c := by
  intro p hp c hc s hs hn
  have hsafe : scanSafe c.data = true := by
    simp only [canonicalNames, List.mem_cons, List.not_mem_nil, or_false] at hc
    rcases hc with rfl | rfl | rfl | rfl | rfl | rfl <;> decide
  simp only [List.mem_cons, List.not_mem_nil, or_false] at hp
  rcases hp with rfl | rfl
  · exact ⟨stripBase_cat_safe c hsafe, stripBase_cat_suffix_safe c hsafe s hs hn⟩
  · exact ⟨stripBase_num_safe c hsafe, stripBase_num_suffix_safe c hsafe s hs hn⟩

/-- Witness for `C5_roundtrip` at `cat__Jabatan/Posisi_Manager`. -/
theorem C5_roundtrip_witness :
    stripBase ("cat__" ++ "Jabatan/Posisi") = "Jabatan/Posisi"
    ∧ stripBase ("cat__" ++ "Jabatan/Posisi" ++ "_" ++ "Manager") = "Jabatan/Posisi" :=
  C5_roundtrip "cat__" (by decide) "Jabatan/Posisi" (by decide) "Manager"
    (by decide) (by decide)

/-- C6: whenever the SHAP attribution row disagrees in length with the
preprocessor's encoded feature names, the insight pipeline rejects the
request — `pd.DataFrame` raises on unequal column lengths and the
outermost boundary surfaces that as the failure response — instead of
producing a misaligned name/value assignment. -/
theorem C6_length_mismatch_rejected (m : MLModel) (r : List (String × JVal))
    (enc : List (List ℚ)) (p : ℚ) (ps : List ℚ)
    (row : List ℚ) (rows : List (List ℚ))
    (h1 : m.transform [mapRecord r] = Except.ok enc)
    (h2 : m.predict enc = Except.ok (p :: ps))
    (h3 : m.shapValues enc = Except.ok (row :: rows))
    (h4 : m.featureNamesOut.length ≠ row.length) :
    insightHandler m (JBody.obj r)
      = (400, ApiResult.failure "All arrays must be of the same length") := by
  unfold insightHandler insightRun
  simp [bind, Except.bind, h1, h2, h3, h4]

/-- Witness for `C6_length_mismatch_rejected`: two encoded names, a
one-entry attribution row. -/
theorem C6_length_mismatch_witness :
    insightHandler
      ({ transform := fun _ => Except.ok [[1]],
         predict := fun _ => Except.ok [5],
         featureNamesOut := ["cat__a", "num__b"],
         shapValues := fun _ => Except.ok [[1]] } : MLModel)
      (JBody.obj [("job_position", JVal.str "Manager")])
      = (400, ApiResult.failure "All arrays must be of the same length") :=
  C6_length_mismatch_rejected _ _ [[1]] 5 [] [1] [] rfl rfl rfl (by decide)

/-- C8: for every model and request body, each endpoint answers either
with a success response or with the generic `(400, failure message)`
response — no exception escapes and no error kind is distinguished; any
pipeline error (in particular a `transform` failure on a categorical value
unseen during fitting) surfaces as exactly that failure response with the
exception's message. -/
theorem C8_error_boundary (m : MLModel) (body : JBody) :
    ((∃ v, insightHandler m body = (200, ApiResult.success v))
      ∨ (∃ e, insightRun m body = Except.error e
          ∧ insightHandler m body = (400, ApiResult.failure e)))
    ∧ ((∃ v, predictHandler m body = (200, ApiResult.success v))
      ∨ (∃ e, predictRun m body = Except.error e
          ∧ predictHandler m body = (400, ApiResult.failure e)))
    ∧ (∀ e r, m.transform [mapRecord r] = Except.error e →
        insightHandler m (JBody.obj r) = (400, ApiResult.failure e)) := by
  refine ⟨?_, ?_, ?_⟩
  · cases hrun : insightRun m body with
    | ok v => exact Or.inl ⟨v, by simp [insightHandler, hrun]⟩
    | error e => exact Or.inr ⟨e, rfl, by simp [insightHandler, hrun]⟩
  · cases hrun : predictRun m body with
    | ok v => exact Or.inl ⟨v, by simp [predictHandler, hrun]⟩
    | error e => exact Or.inr ⟨e, rfl, by simp [predictHandler, hrun]⟩
  · intro e r htr
    have hrun : insightRun m (JBody.obj r) = Except.error e := by
      unfold insightRun
      simp [bind, Except.bind, htr]
    simp [insightHandler, hrun]

/-- Witness for `C8_error_boundary`: a transform that rejects an unseen
categorical level is surfaced as the generic failure response. -/
theorem C8_error_boundary_witness :
    insightHandler
      ({ transform := fun _ =>
           Except.error "Found unknown categories ['Hybrid'] in column 0",
         predict := fun _ => Except.ok [],
         featureNamesOut := [],
         shapValues := fun _ => Except.ok [] } : MLModel)
      (JBody.obj [("work_mode", JVal.str "Hybrid")])
      = (400, ApiResult.failure "Found unknown categories ['Hybrid'] in column 0") :=
  (C8_error_boundary
      ({ transform := fun _ =>
           Except.error "Found unknown categories ['Hybrid'] in column 0",
         predict := fun _ => Except.ok [],
         featureNamesOut := [],
         shapValues := fun _ => Except.ok [] } : MLModel)
      (JBody.obj [("work_mode", JVal.str "Hybrid")])).2.2
    "Found unknown categories ['Hybrid'] in column 0"
    [("work_mode", JVal.str "Hybrid")] rfl

/-- C9: a single-object body is treated as a batch of one — the success
response reports `count = 1` and one prediction rounded to two decimals —
and a list body yields `count` equal to the list length with the rounded
predictions positionally aligned with the input order (assuming, as the
model contract guarantees, one prediction per input row). -/
theorem C9_predict_batching (m : MLModel) (r : List (String × JVal))
    (rs : List (List (String × JVal))) (enc enc' : List (List ℚ))
    (p : ℚ) (qs : List ℚ)
    (h1 : m.transform [mapRecord r] = Except.ok enc)
    (h2 : m.predict enc = Except.ok [p])
    (h3 : m.transform (rs.map mapRecord) = Except.ok enc')
    (h4 : m.predict enc' = Except.ok qs)
    (h5 : qs.length = rs.length) :
    predictHandler m (JBody.obj r) = (200, ApiResult.success (1, [round2 p]))
    ∧ predictHandler m (JBody.arr rs)
        = (200, ApiResult.success (rs.length, qs.map round2)) := by
  constructor
  · unfold predictHandler predictRun
    simp [bind, Except.bind, h1, h2]
  · unfold predictHandler predictRun
    simp [bind, Except.bind, h3, h4, h5]

/-- Witness for `C9_predict_batching` with a stub model answering 5 per row. -/
theorem C9_predict_batching_witness :
    predictHandler
      ({ transform := fun rows => Except.ok (rows.map (fun _ => [1])),
         predict := fun enc => Except.ok (enc.map (fun _ => 5)),
         featureNamesOut := ["num__a"],
         shapValues := fun _ => Except.ok [] } : MLModel)
      (JBody.obj [("years_of_service", JVal.int 3)])
      = (200, ApiResult.success (1, [round2 5]))
    ∧ predictHandler
      ({ transform := fun rows => Except.ok (rows.map (fun _ => [1])),
         predict := fun enc => Except.ok (enc.map (fun _ => 5)),
         featureNamesOut := ["num__a"],
         shapValues := fun _ => Except.ok [] } : MLModel)
      (JBody.arr [[("years_of_service", JVal.int 3)],
        [("years_of_service", JVal.int 7)]])
      = (200, ApiResult.success (2, [round2 5, round2 5])) :=
  C9_predict_batching _ [("years_of_service", JVal.int 3)]
    [[("years_of_service", JVal.int 3)], [("years_of_service", JVal.int 7)]]
    [[1]] [[1], [1]] 5 [5, 5] rfl rfl rfl rfl rfl

/-- C10: a JSON body that is not a string-keyed object — a list of
records, or any other value — makes `data.items()` raise, so the insight
endpoint answers with exactly the generic 400 failure response; in
particular it never answers with a success or partial insight result. -/
theorem C10_insight_rejects_nonobject (m : MLModel)
    (rs : List (List (String × JVal))) (t : String) :
    insightHandler m (JBody.arr rs)
      = (400, ApiResult.failure "'list' object has no attribute 'items'")
    ∧ insightHandler m (JBody.other t)
      = (400, ApiResult.failure ("'" ++ t ++ "' object has no attribute 'items'")) :=
  ⟨rfl, rfl⟩

end HrisApp
